import Mathlib

/-!
# Verification of the content scoring, deduplication and digest-assembly pipeline

This file is a shallow embedding, in Lean 4, of the core pipeline of the
`ai-daily-digest` repository (package `arxiv_sanity_bot`), together with
theorems settling the specification claims about it.

Embedding conventions:

* Python dictionaries carried between pipeline stages are modelled as Lean
  structures whose fields are the keys the code reads or writes.
* Python `list` is `List`, Python string slicing `s[:n]` is `take`.
* A value that can be absent or `None` is an `Option`.
* External collaborators (the LLM HTTP call and the stdlib `json.loads`)
  are modelled by an oracle value (`LLMResponse`) describing the outcome of
  the call-and-parse step; the surrounding control flow is translated
  faithfully from the source.
* `hashlib.sha256`, `hmac` and UTF-8 encoding are implemented concretely
  (pure functions on `Nat` / byte lists), so the signature module is fully
  executable.
-/

/- ----------------------------------------------------------------------
## Deduplication filter
`src/arxiv_sanity_bot/cli/arxiv_sanity_bot.py`, `_keep_only_new_abstracts`
---------------------------------------------------------------------- -/

/-- One row of the abstracts dataframe.  Only the columns the dedup filter
reads (`arxiv`, plus `title`/`score` used for logging) are modelled. -/
structure AbstractRow where
  arxiv : String
  title : String
  score : Int
deriving DecidableEq, Repr

/-- Modelled from the spec: the `DocumentStore` class
(`arxiv_sanity_bot.store.store`) is not part of the sources; per the spec it
is "a simple external key-value mapping addressed by paper id" exposing a
membership test (`in`) and item assignment.  The dedup filter only uses
membership, so the store is modelled by its list of keys. -/
abbrev DocumentStoreKeys := List String

/-- `_keep_only_new_abstracts(abstracts, doc_store)`: builds a boolean mask,
initially all `True`, sets `mask[idx] = False` for each row whose
`row["arxiv"]` is in the store, and returns `abstracts[mask]` — i.e. the
subsequence of rows whose id is not in the store, in input order. -/
def keep_only_new_abstracts (abstracts : List AbstractRow)
    (doc_store : DocumentStoreKeys) : List AbstractRow :=
  abstracts.filter (fun row => !(doc_store.contains row.arxiv))

/- ----------------------------------------------------------------------
## Fallback scoring
`src/arxiv_sanity_bot/models/content_processor.py`, `_fallback_scoring`
---------------------------------------------------------------------- -/

/-- One merged content dict as built in `daily_digest` (lines 345–428):
keys `type`, `title`, `stars`, `description`, `_original`.

`stars` is `Option Int`: `none` models a missing or `None` value (the
code reads it as `item.get("stars", 0) or 0`).  `_original` is a reference
to the raw source record; records are identified here by a `Nat` tag, with
`none` modelling a missing/falsy `_original`. -/
structure ContentDict where
  type_ : String
  title : String
  stars : Option Int
  description : String
  original : Option Nat
deriving DecidableEq, Repr

/-- A content dict after scoring: the same keys plus `score`, `tag`,
`reason` (the scoring paths copy the dict and add these three keys). -/
structure ScoredDict extends ContentDict where
  score : Int
  tag : String
  reason : String
deriving DecidableEq, Repr

/-- The per-item body of `_fallback_scoring`: base score 5, `+3` for a
GitHub item with more than 500 stars else `+1` for more than 100, `+1` for
an arXiv item, capped at 10 (`min(score, 10)`); tag by thresholds 8 and 5;
reason from the first 40 characters of the description, or a placeholder
when empty. -/
def fallback_score_item (item : ContentDict) : ScoredDict :=
  let score0 : Int := 5
  let stars : Int := (item.stars.getD 0)
  let score1 : Int :=
    if item.type_ = "github" then
      if stars > 500 then score0 + 3
      else if stars > 100 then score0 + 1
      else score0
    else score0
  let score2 : Int := if item.type_ = "arxiv" then score1 + 1 else score1
  let score : Int := min score2 10
  let tag : String :=
    if score ≥ 8 then "🔥 必看"
    else if score ≥ 5 then "📖 深度"
    else "⚡ 速览"
  let reason0 : String :=
    if item.description.length > 40 then item.description.take 40 ++ "..."
    else item.description
  let reason : String := if reason0 = "" then "值得关注的内容" else reason0
  { item with score := score, tag := tag, reason := reason }

/-- `_fallback_scoring(contents)`: maps `fallback_score_item` over the
input, building a new list of copied-and-extended dicts. -/
def fallback_scoring (contents : List ContentDict) : List ScoredDict :=
  contents.map fallback_score_item

/-- The five contents of end-to-end scenario A: three GitHub items with
stars 10, 600 and 150, and two arXiv items. -/
def scenarioA : List ContentDict :=
  [ ⟨"github", "g1", some 10, "", none⟩,
    ⟨"github", "g2", some 600, "", none⟩,
    ⟨"github", "g3", some 150, "", none⟩,
    ⟨"arxiv", "p1", some 0, "", none⟩,
    ⟨"arxiv", "p2", some 0, "", none⟩ ]

/- ----------------------------------------------------------------------
## Scoring & tagging engine
`src/arxiv_sanity_bot/models/content_processor.py`, `score_and_tag_contents`
---------------------------------------------------------------------- -/

/-- One element of the JSON array the LLM is asked to return:
`{"index": .., "score": .., "tag": .., "reason": ..}`.  Each key is read
with `dict.get` and a default, so each field is an `Option`. -/
structure ScoreInfo where
  index : Option Int
  score : Option Int
  tag : Option String
  reason : Option String
deriving DecidableEq, Repr

/-- Outcome of the external LLM call followed by `json.loads` on the
fence-stripped response text.  These constructors are exactly the cases the
source code distinguishes:

* `callFailed` — `_call_openai` raised (`except Exception`, line 189);
* `parseFailed` — `json.loads` raised `JSONDecodeError` (or a `KeyError`
  surfaced while parsing, line 185);
* `parsedNonList` — the parsed value fails `isinstance(scores_data, list)`;
* `parsedList xs` — the parsed value is a list of score dicts.

The HTTP transport, the markdown-fence stripping and the JSON parser are
external collaborators (`openai`, `json`), so their combined outcome is an
oracle parameter of the embedding. -/
inductive LLMResponse where
  | callFailed : LLMResponse
  | parseFailed : LLMResponse
  | parsedNonList : LLMResponse
  | parsedList : List ScoreInfo → LLMResponse
deriving DecidableEq, Repr

/-- The success branch (lines 166–178): zip the contents with the parsed
score dicts, copy each content dict and add `score`/`tag`/`reason` with the
source's `dict.get` defaults (5, "📖 深度", "值得关注的内容"). -/
def apply_llm_scores (contents : List ContentDict) (xs : List ScoreInfo) :
    List ScoredDict :=
  (contents.zip xs).map fun p =>
    { p.1 with
      score := p.2.score.getD 5
      tag := p.2.tag.getD "📖 深度"
      reason := p.2.reason.getD "值得关注的内容" }

/-- `score_and_tag_contents(contents)`: returns `[]` for an empty input;
otherwise, if the LLM call-and-parse produced a list of the same length as
the input the parsed scores are applied, and in every other case
(`callFailed`, `parseFailed`, not a list, length mismatch) the function
degrades to `_fallback_scoring` on the same input.  The function is total:
no outcome of the LLM call makes it raise. -/
def score_and_tag_contents (resp : LLMResponse)
    (contents : List ContentDict) : List ScoredDict :=
  if contents.isEmpty then []
  else
    match resp with
    | .parsedList xs =>
        if xs.length = contents.length then apply_llm_scores contents xs
        else fallback_scoring contents
    | _ => fallback_scoring contents

/- ----------------------------------------------------------------------
## Stable descending sort
`tagged_contents.sort(key=lambda x: x.get("score", 0), reverse=True)`
(`daily_digest`, line 439).  Python's `list.sort` is documented to be
stable, also with `reverse=True` (equal keys keep their original relative
order).  A stable descending sort is extensionally unique, so it is
embedded here as a structurally recursive insertion sort: an item is
inserted before the first already-placed item whose score is not larger,
so earlier input items precede later ones on equal scores.
---------------------------------------------------------------------- -/

/-- Insert `x` into `l` before the first element whose score is `≤ x.score`. -/
def insertScoreDesc (x : ScoredDict) : List ScoredDict → List ScoredDict
  | [] => [x]
  | y :: ys => if y.score ≤ x.score then x :: y :: ys else y :: insertScoreDesc x ys

/-- The stable sort by `score` descending. -/
def sortScoreDesc : List ScoredDict → List ScoredDict
  | [] => []
  | x :: xs => insertScoreDesc x (sortScoreDesc xs)

/- ----------------------------------------------------------------------
## Digest assembly
`daily_digest` (`src/arxiv_sanity_bot/cli/arxiv_sanity_bot.py`,
lines 344–493): merge the per-source lists into one unified list, score it,
sort by score descending, and extract the global top 3 and the per-type
top 3.
---------------------------------------------------------------------- -/

/-- A raw record from one source client, reduced to the fields the merge
step (lines 345–428) reads: an identifying tag standing for the Python
object itself (`orig`), the title, the engagement value the merge puts
under `"stars"` (already collapsed from the per-source expressions such as
`repo.stars_total or 0` and `model.downloads or model.likes or 0`), and the
description text. -/
structure RawRecord where
  orig : Nat
  title : String
  stars : Int
  description : String
deriving DecidableEq, Repr

/-- One merge branch: the dict `{"type": t, "title": .., "stars": ..,
"description": ..[:200], "_original": ..}`. -/
def toContentDict (t : String) (r : RawRecord) : ContentDict :=
  ⟨t, r.title, some r.stars, r.description.take 200, some r.orig⟩

/-- Lines 345–428: `all_contents` is built by appending, in this order,
the GitHub repos (type "github"), HF models ("hf_model"), HF datasets
("hf_dataset"), HF spaces ("hf_space"), arXiv papers ("arxiv"), blog posts
("blog", with `"stars": 0` hard-coded), tweets ("twitter") and videos
("youtube"). -/
def mergeContents (github hfModels hfDatasets hfSpaces arxivPapers
    blogPosts tweets videos : List RawRecord) : List ContentDict :=
  github.map (toContentDict "github") ++
  hfModels.map (toContentDict "hf_model") ++
  hfDatasets.map (toContentDict "hf_dataset") ++
  hfSpaces.map (toContentDict "hf_space") ++
  arxivPapers.map (toContentDict "arxiv") ++
  blogPosts.map (fun r => ⟨"blog", r.title, some 0, r.description.take 200,
    some r.orig⟩) ++
  tweets.map (toContentDict "twitter") ++
  videos.map (toContentDict "youtube")

/-- `get_top3_by_type(contents, content_type)` (lines 454–456): filter the
scored dicts by `type`, take the first three, and return their truthy
`_original` references. -/
def get_top3_by_type (contents : List ScoredDict) (t : String) : List Nat :=
  ((contents.filter (fun c => c.type_ == t)).take 3).filterMap
    (fun c => c.original)

/-- The structure handed to the output channels: the global top 3 scored
dicts and the per-category top-3 original records (lines 442–493). -/
structure DigestPayload where
  global_top3 : List ScoredDict
  github_top3 : List Nat
  hf_models_top3 : List Nat
  hf_datasets_top3 : List Nat
  hf_spaces_top3 : List Nat
  arxiv_top3 : List Nat
  blog_top3 : List Nat
  tweets_top3 : List Nat
  videos_top3 : List Nat
deriving DecidableEq, Repr

/-- The assembly step of `daily_digest` (lines 433–493): if the merged
list is empty, skip scoring and take the head of each raw source list
(`github_repos[:3]`, ...); otherwise score everything, sort by score
descending (stable), and extract the global top 3 and per-type top 3. -/
def daily_digest_assemble (resp : LLMResponse) (github hfModels hfDatasets
    hfSpaces arxivPapers blogPosts tweets videos : List RawRecord) :
    DigestPayload :=
  let all_contents := mergeContents github hfModels hfDatasets hfSpaces
    arxivPapers blogPosts tweets videos
  if all_contents.isEmpty then
    { global_top3 := []
      github_top3 := (github.take 3).map (·.orig)
      hf_models_top3 := (hfModels.take 3).map (·.orig)
      hf_datasets_top3 := (hfDatasets.take 3).map (·.orig)
      hf_spaces_top3 := (hfSpaces.take 3).map (·.orig)
      arxiv_top3 := (arxivPapers.take 3).map (·.orig)
      blog_top3 := (blogPosts.take 3).map (·.orig)
      tweets_top3 := (tweets.take 3).map (·.orig)
      videos_top3 := (videos.take 3).map (·.orig) }
  else
    let sorted := sortScoreDesc (score_and_tag_contents resp all_contents)
    { global_top3 := sorted.take 3
      github_top3 := get_top3_by_type sorted "github"
      hf_models_top3 := get_top3_by_type sorted "hf_model"
      hf_datasets_top3 := get_top3_by_type sorted "hf_dataset"
      hf_spaces_top3 := get_top3_by_type sorted "hf_space"
      arxiv_top3 := get_top3_by_type sorted "arxiv"
      blog_top3 := get_top3_by_type sorted "blog"
      tweets_top3 := get_top3_by_type sorted "twitter"
      videos_top3 := get_top3_by_type sorted "youtube" }

/-- The four scored GitHub items of end-to-end scenario C, with scores
`[9, 3, 7, 9]` in input order. -/
def scenarioC : List ScoredDict :=
  [ ⟨⟨"github", "r0", some 0, "", some 0⟩, 9, "t", "r"⟩,
    ⟨⟨"github", "r1", some 0, "", some 1⟩, 3, "t", "r"⟩,
    ⟨⟨"github", "r2", some 0, "", some 2⟩, 7, "t", "r"⟩,
    ⟨⟨"github", "r3", some 0, "", some 3⟩, 9, "t", "r"⟩ ]

/- ----------------------------------------------------------------------
## Publish control flow
`bot` (lines 59–79) and the output section of `daily_digest`
(lines 495–584).
---------------------------------------------------------------------- -/

/-- `_summarize_top_abstracts(selected_abstracts)` (lines 169–208): take
the first `MAX_NUM_PAPERS` rows and keep the rows whose summary is not
`None`, pairing them with the summary.  The per-row OpenAI summarization is
external; its outcome is the oracle `summarize`; the config constant
`MAX_NUM_PAPERS` (from `arxiv_sanity_bot.config`, not under `src/`) is a
parameter. -/
def summarize_top_abstracts (selected : List AbstractRow)
    (summarize : AbstractRow → Option String) (maxNumPapers : Nat) :
    List (AbstractRow × String) :=
  (selected.take maxNumPapers).filterMap
    (fun row => (summarize row).map (fun s => (row, s)))

/-- Control flow of the `bot` command (lines 59–79): whether `send_tweets`
is reached.  If the gathered abstracts are empty the function returns at
line 66, before the document store is opened and before any tweet; else it
dedups, summarizes, and calls `send_tweets` iff `len(summaries) > 0`. -/
def bot_attempts_tweets (abstracts : List AbstractRow)
    (doc_store : DocumentStoreKeys)
    (summarize : AbstractRow → Option String) (maxNumPapers : Nat) : Bool :=
  if abstracts.isEmpty then false
  else
    !(summarize_top_abstracts (keep_only_new_abstracts abstracts doc_store)
        summarize maxNumPapers).isEmpty

/-- Control flow of the output section of `daily_digest` (lines 495–584):
whether an email send is attempted (`sender.send_digest` reached, line 556)
and whether a Notion write is attempted (`NotionSender` constructed, lines
787–851).  The environment is passed explicitly: an unset variable is the
empty string (`os.environ.get(...)` with default `""`).

The eight source-result lists are parameters of the run, but — exactly as
in the source — no branch of this section inspects whether they are empty:
the code returns early only for `--dry` (line 524), missing
`TO_EMAIL`/`FROM_EMAIL` (line 532) and a missing sender configuration
(line 554). -/
def daily_digest_publish_attempts
    (_github _hfModels _hfDatasets _hfSpaces _arxivPapers _blogPosts
      _tweets _videos : List RawRecord)
    (dry : Bool)
    (toEmail fromEmail smtpHost smtpUser smtpPass sendgridKey
      outputNotion notionToken notionDbId : String) : Bool × Bool :=
  let notionAttempt :=
    outputNotion.toLower == "true" &&
    !(notionToken.trim == "") && !(notionDbId.trim == "")
  if dry then (false, false)
  else if toEmail = "" ∨ fromEmail = "" then (false, false)
  else if smtpHost ≠ "" ∧ smtpUser ≠ "" ∧ smtpPass ≠ "" then
    (true, notionAttempt)
  else if sendgridKey ≠ "" then (true, notionAttempt)
  else (false, false)

/- ----------------------------------------------------------------------
## Unified content model
`src/arxiv_sanity_bot/schemas.py`, class `ContentItem`
---------------------------------------------------------------------- -/

/-- The pydantic `ContentItem` model.  Required fields have no default;
`author`, `summary`, `content` default to `""`, `engagement_score` defaults
to `0`, `metadata` to an empty dict.  `published_on` is a timestamp
(modelled as an integer epoch value); `metadata` as key-value pairs. -/
structure ContentItem where
  id : String
  title : String
  source : String
  source_type : String
  url : String
  published_on : Int
  author : String := ""
  summary : String := ""
  content : String := ""
  engagement_score : Int := 0
  metadata : List (String × String) := []
deriving DecidableEq, Repr

/-- The six admissible `source_type` literals
(`Literal["arxiv", "github", "huggingface", "blog", "twitter", "youtube"]`). -/
def contentItemSourceTypes : List String :=
  ["arxiv", "github", "huggingface", "blog", "twitter", "youtube"]

/-- Pydantic validation of a `ContentItem`: the only value-level constraint
the model declares is the `Literal` on `source_type` (all other fields are
plain `str`/`int`/`dict` with no `ge`, bound or validator). -/
def contentItemValidates (it : ContentItem) : Bool :=
  contentItemSourceTypes.contains it.source_type

/-- A `ContentItem` with a negative engagement score, as a normalized
Twitter record could carry. -/
def negativeEngagementItem : ContentItem :=
  { id := "tweet-1", title := "t", source := "@user",
    source_type := "twitter", url := "https://x.com/1", published_on := 0,
    engagement_score := -1 }

/- ----------------------------------------------------------------------
## Action-link signing
`src/arxiv_sanity_bot/signature.py`: HMAC-SHA256 over
`"{content_id}:{date}"`, hex digest truncated to 16 characters.
`hashlib.sha256` / `hmac.new` / `str.encode("utf-8")` are implemented
concretely below (FIPS 180-4 SHA-256, RFC 2104 HMAC, UTF-8), operating on
byte lists with explicit `% 2^32` where 32-bit overflow matters.
---------------------------------------------------------------------- -/

/-- The 32-bit modulus `2^32`. -/
def M32 : Nat := 4294967296

/-- Right rotation of a 32-bit word by `n`. -/
def rotr32 (n x : Nat) : Nat := x / 2 ^ n + x % 2 ^ n * 2 ^ (32 - n)

/-- Logical right shift of a 32-bit word by `n`. -/
def shr32 (n x : Nat) : Nat := x / 2 ^ n

/-- Bitwise complement of a 32-bit word. -/
def not32 (x : Nat) : Nat := 4294967295 - x % M32

/-- The SHA-256 round constants (FIPS 180-4 §4.2.2), eight per row. -/
def sha256K : List Nat :=
  [0x428a2f98, 0x71374491, 0xb5c0fbcf, 0xe9b5dba5, 0x3956c25b, 0x59f111f1,
   0x923f82a4, 0xab1c5ed5] ++
  [0xd807aa98, 0x12835b01, 0x243185be, 0x550c7dc3, 0x72be5d74, 0x80deb1fe,
   0x9bdc06a7, 0xc19bf174] ++
  [0xe49b69c1, 0xefbe4786, 0x0fc19dc6, 0x240ca1cc, 0x2de92c6f, 0x4a7484aa,
   0x5cb0a9dc, 0x76f988da] ++
  [0x983e5152, 0xa831c66d, 0xb00327c8, 0xbf597fc7, 0xc6e00bf3, 0xd5a79147,
   0x06ca6351, 0x14292967] ++
  [0x27b70a85, 0x2e1b2138, 0x4d2c6dfc, 0x53380d13, 0x650a7354, 0x766a0abb,
   0x81c2c92e, 0x92722c85] ++
  [0xa2bfe8a1, 0xa81a664b, 0xc24b8b70, 0xc76c51a3, 0xd192e819, 0xd6990624,
   0xf40e3585, 0x106aa070] ++
  [0x19a4c116, 0x1e376c08, 0x2748774c, 0x34b0bcb5, 0x391c0cb3, 0x4ed8aa4a,
   0x5b9cca4f, 0x682e6ff3] ++
  [0x748f82ee, 0x78a5636f, 0x84c87814, 0x8cc70208, 0x90befffa, 0xa4506ceb,
   0xbef9a3f7, 0xc67178f2]

/-- The SHA-256 initial hash value (FIPS 180-4 §5.3.3). -/
def sha256H0 : List Nat :=
  [0x6a09e667, 0xbb67ae85, 0x3c6ef372, 0xa54ff53a,
   0x510e527f, 0x9b05688c, 0x1f83d9ab, 0x5be0cd19]

/-- Big-endian byte encoding of a value at a fixed width. -/
def beBytes : Nat → Nat → List Nat
  | 0, _ => []
  | w + 1, n => beBytes w (n / 256) ++ [n % 256]

/-- SHA-256 message padding: append `0x80`, zeros up to 56 mod 64, and the
bit length as 8 big-endian bytes. -/
def sha256Pad (msg : List Nat) : List Nat :=
  let len := msg.length
  let zeros := (64 - (len + 9) % 64) % 64
  msg ++ [0x80] ++ List.replicate zeros 0 ++ beBytes 8 (len * 8)

/-- σ₀ (FIPS 180-4 §4.1.2). -/
def ssig0 (x : Nat) : Nat :=
  Nat.xor (Nat.xor (rotr32 7 x) (rotr32 18 x)) (shr32 3 x)

/-- σ₁. -/
def ssig1 (x : Nat) : Nat :=
  Nat.xor (Nat.xor (rotr32 17 x) (rotr32 19 x)) (shr32 10 x)

/-- Σ₀. -/
def bsig0 (x : Nat) : Nat :=
  Nat.xor (Nat.xor (rotr32 2 x) (rotr32 13 x)) (rotr32 22 x)

/-- Σ₁. -/
def bsig1 (x : Nat) : Nat :=
  Nat.xor (Nat.xor (rotr32 6 x) (rotr32 11 x)) (rotr32 25 x)

/-- Ch(e, f, g). -/
def chf (e f g : Nat) : Nat :=
  Nat.xor (Nat.land e f) (Nat.land (not32 e) g)

/-- Maj(a, b, c). -/
def majf (a b c : Nat) : Nat :=
  Nat.xor (Nat.xor (Nat.land a b) (Nat.land a c)) (Nat.land b c)

/-- The sixteen big-endian 32-bit words of one 64-byte block. -/
def blockWords (block : List Nat) : List Nat :=
  (List.range 16).map fun j =>
    block.getD (4 * j) 0 * 16777216 + block.getD (4 * j + 1) 0 * 65536 +
      block.getD (4 * j + 2) 0 * 256 + block.getD (4 * j + 3) 0

/-- The 64-word message schedule extending the sixteen block words. -/
def schedule (w16 : List Nat) : List Nat :=
  (List.range 48).foldl
    (fun w _ =>
      w ++ [(ssig1 (w.getD (w.length - 2) 0) + w.getD (w.length - 7) 0 +
        ssig0 (w.getD (w.length - 15) 0) + w.getD (w.length - 16) 0) % M32])
    w16

/-- One SHA-256 compression round sequence over a 64-byte block, updating
the eight-word state. -/
def compressBlock (H : List Nat) (block : List Nat) : List Nat :=
  let W := schedule (blockWords block)
  let st := (sha256K.zip W).foldl
    (fun st kw =>
      let a := st.getD 0 0
      let b := st.getD 1 0
      let c := st.getD 2 0
      let d := st.getD 3 0
      let e := st.getD 4 0
      let f := st.getD 5 0
      let g := st.getD 6 0
      let h := st.getD 7 0
      let t1 := (h + bsig1 e + chf e f g + kw.1 + kw.2) % M32
      let t2 := (bsig0 a + majf a b c) % M32
      [(t1 + t2) % M32, a, b, c, (d + t1) % M32, e, f, g])
    H
  List.zipWith (fun hi si => (hi + si) % M32) H st

/-- SHA-256 of a byte list, as the 32-byte digest. -/
def sha256 (msg : List Nat) : List Nat :=
  let padded := sha256Pad msg
  let nBlocks := padded.length / 64
  let Hf := (List.range nBlocks).foldl
    (fun H i => compressBlock H ((padded.drop (64 * i)).take 64)) sha256H0
  (Hf.map (beBytes 4)).flatten

/-- HMAC-SHA256 (RFC 2104) of a message under a key, as the 32-byte MAC. -/
def hmacSha256 (key msg : List Nat) : List Nat :=
  let k0 := if key.length > 64 then sha256 key else key
  let k := k0 ++ List.replicate (64 - k0.length) 0
  let ipad := k.map (fun b => Nat.xor b 0x36)
  let opad := k.map (fun b => Nat.xor b 0x5c)
  sha256 (opad ++ sha256 (ipad ++ msg))

/-- UTF-8 encoding of one code point. -/
def utf8Bytes (c : Char) : List Nat :=
  let n := c.toNat
  if n < 128 then [n]
  else if n < 2048 then [192 + n / 64, 128 + n % 64]
  else if n < 65536 then [224 + n / 4096, 128 + n / 64 % 64, 128 + n % 64]
  else [240 + n / 262144, 128 + n / 4096 % 64, 128 + n / 64 % 64,
    128 + n % 64]

/-- `s.encode("utf-8")`. -/
def strUtf8 (s : String) : List Nat := (s.data.map utf8Bytes).flatten

/-- Lowercase hex digit of a value below 16 (`Nat.digitChar` agrees with
Python's lowercase hex rendering on 0–15). -/
def hexDigit (d : Nat) : Char := Nat.digitChar d

/-- Big-endian hex digits of a value at a fixed width (most significant
digit first), as `hexdigest()` renders a digest. -/
def hexCharsBE : Nat → Nat → List Char
  | 0, _ => []
  | w + 1, n => hexDigit (n / 16 ^ w % 16) :: hexCharsBE w n

/-- A byte list as the big-endian natural number it spells. -/
def bytesToNat (bytes : List Nat) : Nat :=
  bytes.foldl (fun acc b => acc * 256 + b % 256) 0

/-- `hmac.new(key, message, hashlib.sha256).hexdigest()[:16]`: the 64
lowercase-hex-character digest of the MAC, truncated to its first 16
characters (the Python slice acts on the hex string; here the digest is
built as its character list and truncated with `take`). -/
def rawSignature (content_id date key : String) : String :=
  String.mk ((hexCharsBE 64 (bytesToNat (hmacSha256 (strUtf8 key)
    (strUtf8 (content_id ++ ":" ++ date))))).take 16)

/-- `key = secret_key or os.environ.get("SECRET_KEY", "")`: a `None` or
empty `secret_key` argument falls back to the environment value (an unset
variable is the empty string). -/
def effectiveKey (secret_key : Option String) (envSecretKey : String) :
    String :=
  match secret_key with
  | some s => if s = "" then envSecretKey else s
  | none => envSecretKey

/-- `generate_signature(content_id, date, secret_key)`: raises
`ValueError` when the effective key is empty, else returns the truncated
HMAC hex digest of `"{content_id}:{date}"`. -/
def generate_signature (content_id date : String)
    (secret_key : Option String) (envSecretKey : String) :
    Except String String :=
  let key := effectiveKey secret_key envSecretKey
  if key = "" then
    Except.error "Secret key required. Set SECRET_KEY environment variable."
  else Except.ok (rawSignature content_id date key)

/-- `verify_signature(content_id, date, signature, secret_key)`: recompute
the expected signature and compare (`hmac.compare_digest`, a constant-time
string equality); a `ValueError` from the missing key is caught and yields
`False`. -/
def verify_signature (content_id date sig : String)
    (secret_key : Option String) (envSecretKey : String) : Bool :=
  match generate_signature content_id date secret_key envSecretKey with
  | Except.ok expected => expected == sig
  | Except.error _ => false

/-- Hex strings of a fixed width, used as arbitrarily many distinct
candidate content ids. -/
def idString (k : Nat) : String := String.mk (hexCharsBE 17 k)

/- ----------------------------------------------------------------------
## Theorems
The helper lemmas come first, then the claim theorems, their witnesses and
the counterexamples.
---------------------------------------------------------------------- -/

/-- C1.  The dedup filter returns a subsequence of its input (order
preserved); a row is in the output iff it is an input row whose arxiv id is
not in the store; an empty store returns the input unchanged; and on store
`["2401.00001"]` with candidates `["2401.00001", "2401.00002"]` only the
second survives. -/
theorem keep_only_new_abstracts_correct :
    (∀ (abstracts : List AbstractRow) (store : DocumentStoreKeys),
      (keep_only_new_abstracts abstracts store).Sublist abstracts) ∧
    (∀ (abstracts : List AbstractRow) (store : DocumentStoreKeys)
        (r : AbstractRow),
      r ∈ keep_only_new_abstracts abstracts store ↔
        r ∈ abstracts ∧ ¬ r.arxiv ∈ store) ∧
    (∀ abstracts : List AbstractRow,
      keep_only_new_abstracts abstracts [] = abstracts) ∧
    (keep_only_new_abstracts
        [⟨"2401.00001", "a", 1⟩, ⟨"2401.00002", "b", 1⟩] ["2401.00001"] =
      [⟨"2401.00002", "b", 1⟩]) := by
  refine ⟨fun a s => List.filter_sublist a, fun a s r => ?_, fun a => ?_, by decide⟩
  · simp [keep_only_new_abstracts, List.mem_filter, List.elem_iff, List.contains]
  · simp [keep_only_new_abstracts]

/-- C2 counterexample.  On scenario A the fallback scores are
`[5, 8, 6, 6, 6]`, but the tag of the first item (score 5) is the middle
tier "📖 深度", not the low tier "⚡ 速览" the claim asserts: the full tag
list differs from the claimed `[low, top, middle, middle, middle]`. -/
theorem scenarioA_first_tag_not_low :
    (fallback_scoring scenarioA).map (·.score) = [5, 8, 6, 6, 6] ∧
    (fallback_scoring scenarioA).map (·.tag) ≠
      ["⚡ 速览", "🔥 必看", "📖 深度", "📖 深度", "📖 深度"] ∧
    ((fallback_scoring scenarioA).map (·.tag)).head? = some "📖 深度" := by
  refine ⟨by decide, by decide, by decide⟩

/-- C2 amended.  On scenario A the fallback scores are `[5, 8, 6, 6, 6]`
and the tags are `[middle, top, middle, middle, middle]` — the score-5 item
falls in the middle tier (threshold `score >= 5`), and only the score-8
item reaches the top tier. -/
theorem scenarioA_fallback_scores_and_tags :
    (fallback_scoring scenarioA).map (·.score) = [5, 8, 6, 6, 6] ∧
    (fallback_scoring scenarioA).map (·.tag) =
      ["📖 深度", "🔥 必看", "📖 深度", "📖 深度", "📖 深度"] := by
  refine ⟨by decide, by decide⟩

/-- C3.  Every score produced by the fallback path lies in `[1, 10]`,
whatever the items' types and `stars` values (negative, zero, absent or
arbitrarily large). -/
theorem fallback_scoring_score_range
    (contents : List ContentDict) (x : ScoredDict)
    (hx : x ∈ fallback_scoring contents) :
    1 ≤ x.score ∧ x.score ≤ 10 := by
  rcases List.mem_map.mp hx with ⟨item, -, rfl⟩
  unfold fallback_score_item
  dsimp only
  refine ⟨le_min ?_ (by norm_num), min_le_right _ _⟩
  split_ifs <;> omega

/-- Witness for C3 at a concrete input. -/
theorem fallback_scoring_score_range_witness :
    1 ≤ (fallback_score_item ⟨"github", "g", some (-7), "", none⟩).score ∧
      (fallback_score_item ⟨"github", "g", some (-7), "", none⟩).score ≤ 10 :=
  fallback_scoring_score_range [⟨"github", "g", some (-7), "", none⟩] _
    (by decide)

/-- C6.  For every input, whenever the LLM outcome is a failure — the call
raised, the response was not parseable JSON, the parsed value was not a
list, or the parsed list's length differs from the input length — the
scoring engine returns exactly the fallback scoring of the same input (and
in particular never raises: it is a total function of the oracle outcome). -/
theorem score_and_tag_contents_degrades_to_fallback
    (resp : LLMResponse) (contents : List ContentDict)
    (hfail : match resp with
      | .parsedList xs => xs.length ≠ contents.length
      | _ => True) :
    score_and_tag_contents resp contents = fallback_scoring contents := by
  unfold score_and_tag_contents
  by_cases hemp : contents.isEmpty
  · rw [List.isEmpty_iff] at hemp
    subst hemp
    cases resp <;> simp [fallback_scoring]
  · rw [if_neg hemp]
    cases resp with
    | parsedList xs =>
        simp only at hfail
        show (if xs.length = contents.length then _ else _) = _
        rw [if_neg hfail]
    | callFailed => rfl
    | parseFailed => rfl
    | parsedNonList => rfl

/-- Witness for C6: a malformed outcome (parsed list of wrong length) on a
concrete one-element input yields the fallback scoring. -/
theorem score_and_tag_contents_degrades_to_fallback_witness :
    score_and_tag_contents (.parsedList []) [⟨"github", "g", some 10, "", none⟩]
      = fallback_scoring [⟨"github", "g", some 10, "", none⟩] :=
  score_and_tag_contents_degrades_to_fallback (.parsedList [])
    [⟨"github", "g", some 10, "", none⟩] (by decide)

theorem mem_insertScoreDesc {x a : ScoredDict} {l : List ScoredDict} :
    a ∈ insertScoreDesc x l ↔ a = x ∨ a ∈ l := by
  induction l with
  | nil => simp [insertScoreDesc]
  | cons y ys ih =>
      by_cases h : y.score ≤ x.score
      · simp [insertScoreDesc, h]
      · simp only [insertScoreDesc, if_neg h, List.mem_cons, ih]
        tauto

theorem mem_sortScoreDesc {a : ScoredDict} {l : List ScoredDict} :
    a ∈ sortScoreDesc l ↔ a ∈ l := by
  induction l with
  | nil => simp [sortScoreDesc]
  | cons x xs ih => simp [sortScoreDesc, mem_insertScoreDesc, ih]

theorem pairwise_insertScoreDesc {x : ScoredDict} {l : List ScoredDict}
    (h : l.Pairwise (fun a b => b.score ≤ a.score)) :
    (insertScoreDesc x l).Pairwise (fun a b => b.score ≤ a.score) := by
  induction l with
  | nil => simp [insertScoreDesc]
  | cons y ys ih =>
      rcases List.pairwise_cons.mp h with ⟨hy, hys⟩
      by_cases hle : y.score ≤ x.score
      · rw [insertScoreDesc, if_pos hle]
        refine List.pairwise_cons.mpr ⟨?_, h⟩
        intro b hb
        rcases List.mem_cons.mp hb with rfl | hb
        · exact hle
        · exact le_trans (hy b hb) hle
      · rw [insertScoreDesc, if_neg hle]
        refine List.pairwise_cons.mpr ⟨?_, ih hys⟩
        intro b hb
        rcases mem_insertScoreDesc.mp hb with rfl | hb
        · exact le_of_not_le hle
        · exact hy b hb

/-- The sorted list is ordered by score descending. -/
theorem sortScoreDesc_sorted (l : List ScoredDict) :
    (sortScoreDesc l).Pairwise (fun a b => b.score ≤ a.score) := by
  induction l with
  | nil => simp [sortScoreDesc]
  | cons x xs ih => exact pairwise_insertScoreDesc ih

theorem filter_insertScoreDesc (x : ScoredDict) (l : List ScoredDict)
    (s : Int) :
    (insertScoreDesc x l).filter (fun a => a.score == s) =
      if x.score = s then x :: l.filter (fun a => a.score == s)
      else l.filter (fun a => a.score == s) := by
  induction l with
  | nil =>
      by_cases h : x.score = s <;>
        simp [insertScoreDesc, List.filter_cons, h]
  | cons y ys ih =>
      by_cases hle : y.score ≤ x.score
      · rw [insertScoreDesc, if_pos hle]
        by_cases h : x.score = s <;> simp [List.filter_cons, h]
      · have hxy : x.score < y.score := lt_of_not_le hle
        rw [insertScoreDesc, if_neg hle]
        by_cases h : x.score = s
        · have hy : ¬ (y.score == s) = true := by
            simp only [beq_iff_eq]
            omega
          simp only [List.filter_cons, if_neg hy, ih, if_pos h]
        · simp only [List.filter_cons, ih, if_neg h]

/-- Stability: for every score value `s`, the subsequence of items with
score `s` is unchanged by the sort — equal-score items keep their relative
input order. -/
theorem sortScoreDesc_stable (l : List ScoredDict) (s : Int) :
    (sortScoreDesc l).filter (fun a => a.score == s) =
      l.filter (fun a => a.score == s) := by
  induction l with
  | nil => rfl
  | cons x xs ih =>
      rw [sortScoreDesc, filter_insertScoreDesc]
      by_cases h : x.score = s
      · simp [List.filter_cons, h, ih]
      · have : ¬ (x.score == s) = true := by simp [h]
        simp [List.filter_cons, this, h, ih]

/-- Both scoring paths copy the input dict and only add the three scoring
keys: the underlying content dict of every output item is an input item. -/
theorem toContentDict_mem_of_mem_score_and_tag {resp : LLMResponse}
    {contents : List ContentDict} {x : ScoredDict}
    (hx : x ∈ score_and_tag_contents resp contents) :
    x.toContentDict ∈ contents := by
  have hfb : ∀ y : ScoredDict, y ∈ fallback_scoring contents →
      y.toContentDict ∈ contents := by
    intro y hy
    rcases List.mem_map.mp hy with ⟨item, hitem, rfl⟩
    exact hitem
  unfold score_and_tag_contents at hx
  split at hx
  · simp at hx
  · split at hx
    · split at hx
      · rcases List.mem_map.mp hx with ⟨p, hp, rfl⟩
        exact (List.of_mem_zip hp).1
      · exact hfb x hx
    · exact hfb x hx

/-- Each merged dict carries the type string of the branch that created it,
and its `_original` points into that branch's source list. -/
theorem type_orig_of_mem_merge {github hfModels hfDatasets hfSpaces
    arxivPapers blogPosts tweets videos : List RawRecord} {x : ContentDict}
    (hx : x ∈ mergeContents github hfModels hfDatasets hfSpaces arxivPapers
      blogPosts tweets videos) :
    (x.type_ = "github" ∧ ∃ r ∈ github, x.original = some r.orig) ∨
    (x.type_ = "hf_model" ∧ ∃ r ∈ hfModels, x.original = some r.orig) ∨
    (x.type_ = "hf_dataset" ∧ ∃ r ∈ hfDatasets, x.original = some r.orig) ∨
    (x.type_ = "hf_space" ∧ ∃ r ∈ hfSpaces, x.original = some r.orig) ∨
    (x.type_ = "arxiv" ∧ ∃ r ∈ arxivPapers, x.original = some r.orig) ∨
    (x.type_ = "blog" ∧ ∃ r ∈ blogPosts, x.original = some r.orig) ∨
    (x.type_ = "twitter" ∧ ∃ r ∈ tweets, x.original = some r.orig) ∨
    (x.type_ = "youtube" ∧ ∃ r ∈ videos, x.original = some r.orig) := by
  simp only [mergeContents, List.mem_append, List.mem_map] at hx
  rcases hx with ((((((⟨r, hr, rfl⟩ | ⟨r, hr, rfl⟩) | ⟨r, hr, rfl⟩) |
      ⟨r, hr, rfl⟩) | ⟨r, hr, rfl⟩) | ⟨r, hr, rfl⟩) | ⟨r, hr, rfl⟩) |
      ⟨r, hr, rfl⟩
  · exact Or.inl ⟨rfl, r, hr, rfl⟩
  · exact Or.inr (Or.inl ⟨rfl, r, hr, rfl⟩)
  · exact Or.inr (Or.inr (Or.inl ⟨rfl, r, hr, rfl⟩))
  · exact Or.inr (Or.inr (Or.inr (Or.inl ⟨rfl, r, hr, rfl⟩)))
  · exact Or.inr (Or.inr (Or.inr (Or.inr (Or.inl ⟨rfl, r, hr, rfl⟩))))
  · exact Or.inr (Or.inr (Or.inr (Or.inr (Or.inr
      (Or.inl ⟨rfl, r, hr, rfl⟩)))))
  · exact Or.inr (Or.inr (Or.inr (Or.inr (Or.inr (Or.inr
      (Or.inl ⟨rfl, r, hr, rfl⟩))))))
  · exact Or.inr (Or.inr (Or.inr (Or.inr (Or.inr (Or.inr (Or.inr
      ⟨rfl, r, hr, rfl⟩))))))

/-- Elements of a per-type top-3 list are originals of sorted scored items
of that type. -/
theorem get_top3_by_type_sub {resp : LLMResponse}
    {merged : List ContentDict} (t : String) (src : List RawRecord)
    (h : ∀ x : ContentDict, x ∈ merged → x.type_ = t →
      ∃ r ∈ src, x.original = some r.orig) :
    get_top3_by_type (sortScoreDesc (score_and_tag_contents resp merged)) t
      ⊆ src.map (·.orig) := by
  intro a ha
  rcases List.mem_filterMap.mp ha with ⟨c, hc, horig⟩
  have hcf := List.mem_of_mem_take hc
  rcases List.mem_filter.mp hcf with ⟨hmemS, htyp⟩
  have htyp' : c.type_ = t := by simpa using htyp
  have hmem : c ∈ score_and_tag_contents resp merged :=
    mem_sortScoreDesc.mp hmemS
  have hmerged := toContentDict_mem_of_mem_score_and_tag hmem
  rcases h c.toContentDict hmerged htyp' with ⟨r, hr, heq⟩
  have : a = r.orig := by
    have := horig
    rw [show c.original = c.toContentDict.original from rfl, heq] at this
    exact ((Option.some.injEq _ _).mp this).symm
  exact this ▸ List.mem_map.mpr ⟨r, hr, rfl⟩

/-- C4.  The assembly's sort (line 439) is a stable descending sort: the
output is ordered by score descending, and for every score value the
subsequence of items holding it is exactly the input subsequence (equal
scores keep their relative input order, in the global ranking and hence in
each per-type selection).  On scenario C (GitHub scores `[9, 3, 7, 9]`)
the GitHub per-category top 3 is `[item0, item3, item2]` and item1 is
excluded. -/
theorem daily_digest_stable_ranking :
    (∀ l : List ScoredDict,
      (sortScoreDesc l).Pairwise (fun a b => b.score ≤ a.score)) ∧
    (∀ (l : List ScoredDict) (s : Int),
      (sortScoreDesc l).filter (fun a => a.score == s) =
        l.filter (fun a => a.score == s)) ∧
    get_top3_by_type (sortScoreDesc scenarioC) "github" = [0, 3, 2] ∧
    1 ∉ get_top3_by_type (sortScoreDesc scenarioC) "github" :=
  ⟨sortScoreDesc_sorted, sortScoreDesc_stable, by decide, by decide⟩

/-- C5.  Assembling with every source empty yields the all-empty payload
(no error, empty global top 3, empty per-category lists); and each
per-category top-3 list only ever contains records of its own source list,
so an input whose items all come from a single source leaves every other
category's list empty. -/
theorem daily_digest_assemble_robust :
    (∀ resp : LLMResponse,
      daily_digest_assemble resp [] [] [] [] [] [] [] [] =
        ⟨[], [], [], [], [], [], [], [], []⟩) ∧
    (∀ (resp : LLMResponse) (g hm hd hs ax bl tw yt : List RawRecord),
      (daily_digest_assemble resp g hm hd hs ax bl tw yt).github_top3 ⊆
        g.map (·.orig) ∧
      (daily_digest_assemble resp g hm hd hs ax bl tw yt).hf_models_top3 ⊆
        hm.map (·.orig) ∧
      (daily_digest_assemble resp g hm hd hs ax bl tw yt).hf_datasets_top3 ⊆
        hd.map (·.orig) ∧
      (daily_digest_assemble resp g hm hd hs ax bl tw yt).hf_spaces_top3 ⊆
        hs.map (·.orig) ∧
      (daily_digest_assemble resp g hm hd hs ax bl tw yt).arxiv_top3 ⊆
        ax.map (·.orig) ∧
      (daily_digest_assemble resp g hm hd hs ax bl tw yt).blog_top3 ⊆
        bl.map (·.orig) ∧
      (daily_digest_assemble resp g hm hd hs ax bl tw yt).tweets_top3 ⊆
        tw.map (·.orig) ∧
      (daily_digest_assemble resp g hm hd hs ax bl tw yt).videos_top3 ⊆
        yt.map (·.orig)) := by
  constructor
  · intro resp
    rfl
  · intro resp g hm hd hs ax bl tw yt
    by_cases hemp : (mergeContents g hm hd hs ax bl tw yt).isEmpty
    · simp only [daily_digest_assemble, if_pos hemp]
      refine ⟨?_, ?_, ?_, ?_, ?_, ?_, ?_, ?_⟩ <;>
        exact List.map_subset _ (List.take_subset _ _)
    · simp only [daily_digest_assemble, if_neg hemp]
      refine ⟨?_, ?_, ?_, ?_, ?_, ?_, ?_, ?_⟩ <;>
        · refine get_top3_by_type_sub _ _ ?_
          intro x hx ht
          rcases type_orig_of_mem_merge hx with ⟨he, hr⟩ | ⟨he, hr⟩ |
            ⟨he, hr⟩ | ⟨he, hr⟩ | ⟨he, hr⟩ | ⟨he, hr⟩ | ⟨he, hr⟩ |
            ⟨he, hr⟩ <;>
            first
              | exact hr
              | (rw [ht] at he; exact absurd he (by decide))

/-- C8 counterexample.  A daily-digest run in which every source fetch
returned zero content, not in dry mode, with `TO_EMAIL`/`FROM_EMAIL` and an
SMTP sender configured, still attempts the email delivery: the claim's "no
email/Notion delivery is attempted in the daily-digest path" is false. -/
theorem daily_digest_zero_content_still_emails :
    (daily_digest_publish_attempts [] [] [] [] [] [] [] [] false
        "user@example.com" "bot@example.com" "smtp.example.com" "u" "p"
        "" "" "" "").1 = true := by
  decide

/-- C8 amended.  A zero-content run of the `bot` path terminates early
(line 66) without attempting any tweet; in the `daily_digest` path,
however, the decision to attempt email/Notion delivery depends only on the
dry flag and the channel configuration, never on the fetched content — a
zero-content non-dry run with a sender configured behaves exactly like any
other run of that configuration. -/
theorem zero_content_publish_behaviour :
    (∀ (doc_store : DocumentStoreKeys)
        (summarize : AbstractRow → Option String) (maxNumPapers : Nat),
      bot_attempts_tweets [] doc_store summarize maxNumPapers = false) ∧
    (∀ (g hm hd hs ax bl tw yt : List RawRecord) (dry : Bool)
        (toEmail fromEmail smtpHost smtpUser smtpPass sendgridKey
          outputNotion notionToken notionDbId : String),
      daily_digest_publish_attempts g hm hd hs ax bl tw yt dry
          toEmail fromEmail smtpHost smtpUser smtpPass sendgridKey
          outputNotion notionToken notionDbId =
        daily_digest_publish_attempts [] [] [] [] [] [] [] [] dry
          toEmail fromEmail smtpHost smtpUser smtpPass sendgridKey
          outputNotion notionToken notionDbId) :=
  ⟨fun _ _ _ => rfl, fun _ _ _ _ _ _ _ _ _ _ _ _ _ _ _ _ _ _ => rfl⟩

/-- C9 counterexample.  The model accepts an item whose
`engagement_score` is negative: no non-negativity invariant is enforced at
construction. -/
theorem contentItem_admits_negative_engagement :
    contentItemValidates negativeEngagementItem = true ∧
    negativeEngagementItem.engagement_score < 0 := by
  refine ⟨by decide, by decide⟩

/-- C9 amended.  `ContentItem` validation does not constrain
`engagement_score` at all — an item with any integer value, negative
included, validates — and the field merely defaults to `0`, so
`engagement_score ≥ 0` holds only for items that leave it unset. -/
theorem contentItem_engagement_unconstrained :
    (∀ e : Int,
      contentItemValidates { negativeEngagementItem with
        engagement_score := e } = true) ∧
    ({ id := "tweet-1", title := "t", source := "@user",
       source_type := "twitter", url := "https://x.com/1",
       published_on := 0 : ContentItem }).engagement_score = 0 :=
  ⟨fun _ => rfl, rfl⟩

set_option maxRecDepth 10000 in
/-- FIPS 180-4 test vector: the implementation of `hashlib.sha256` above
hashes "abc" correctly. -/
theorem sha256_abc_vector :
    String.mk (hexCharsBE 64 (bytesToNat (sha256 (strUtf8 "abc")))) =
      "ba7816bf8f01cfea414140de5dae2223b00361a396177a9cb410ff61f20015ad" := by
  decide

set_option maxRecDepth 10000 in
/-- RFC 4231 test case 2: the implementation of `hmac` above is correct. -/
theorem hmac_sha256_rfc4231_vector :
    String.mk (hexCharsBE 64 (bytesToNat (hmacSha256 (strUtf8 "Jefe")
        (strUtf8 "what do ya want for nothing?")))) =
      "5bdcc146bf60754e6a042426089575c75a003f089d2739839dec58b964ec3843" := by
  decide

theorem hexCharsBE_length (w : Nat) : ∀ n, (hexCharsBE w n).length = w := by
  induction w with
  | zero => intro n; rfl
  | succ w ih => intro n; simp [hexCharsBE, ih]

/-- Taking the first `k` hex digits of a `(w + k)`-digit rendering keeps
the digits of the value shifted down by `w` places. -/
theorem hexCharsBE_take (k w n : Nat) :
    (hexCharsBE (w + k) n).take k = hexCharsBE k (n / 16 ^ w) := by
  induction k with
  | zero => simp [hexCharsBE]
  | succ k ih =>
      show (hexDigit (n / 16 ^ (w + k) % 16) ::
          hexCharsBE (w + k) n).take (k + 1) =
        hexDigit (n / 16 ^ w / 16 ^ k % 16) :: hexCharsBE k (n / 16 ^ w)
      rw [List.take_succ_cons, ih, Nat.div_div_eq_div_mul, ← pow_add]

/-- The `w`-digit rendering only reads the value modulo `16 ^ w`. -/
theorem hexCharsBE_mod (w : Nat) : ∀ n,
    hexCharsBE w (n % 16 ^ w) = hexCharsBE w n := by
  induction w with
  | zero => intro n; rfl
  | succ w ih =>
      intro n
      show hexDigit (n % 16 ^ (w + 1) / 16 ^ w % 16) ::
          hexCharsBE w (n % 16 ^ (w + 1)) =
        hexDigit (n / 16 ^ w % 16) :: hexCharsBE w n
      have hd : n % 16 ^ (w + 1) / 16 ^ w = n / 16 ^ w % 16 := by
        rw [pow_succ]
        exact Nat.mod_mul_right_div_self n (16 ^ w) 16
      have ht : hexCharsBE w (n % 16 ^ (w + 1)) = hexCharsBE w n := by
        calc hexCharsBE w (n % 16 ^ (w + 1))
            = hexCharsBE w (n % 16 ^ (w + 1) % 16 ^ w) := (ih _).symm
          _ = hexCharsBE w (n % 16 ^ w) := by
              rw [Nat.mod_mod_of_dvd n (pow_dvd_pow 16 (Nat.le_succ w))]
          _ = hexCharsBE w n := ih n
      rw [hd, Nat.mod_mod_of_dvd _ dvd_rfl, ht]

theorem hexDigit_inj : ∀ a < 16, ∀ b < 16, hexDigit a = hexDigit b → a = b := by
  decide

/-- On values below `16 ^ w` the `w`-digit rendering is injective. -/
theorem hexCharsBE_inj (w : Nat) : ∀ n₁ n₂, n₁ < 16 ^ w → n₂ < 16 ^ w →
    hexCharsBE w n₁ = hexCharsBE w n₂ → n₁ = n₂ := by
  induction w with
  | zero =>
      intro n₁ n₂ h₁ h₂ _
      simp only [pow_zero, Nat.lt_one_iff] at h₁ h₂
      omega
  | succ w ih =>
      intro n₁ n₂ h₁ h₂ heq
      rw [show hexCharsBE (w + 1) n₁ =
            hexDigit (n₁ / 16 ^ w % 16) :: hexCharsBE w n₁ from rfl,
          show hexCharsBE (w + 1) n₂ =
            hexDigit (n₂ / 16 ^ w % 16) :: hexCharsBE w n₂ from rfl] at heq
      injection heq with hd ht
      have hdig : n₁ / 16 ^ w % 16 = n₂ / 16 ^ w % 16 :=
        hexDigit_inj _ (Nat.mod_lt _ (by norm_num)) _
          (Nat.mod_lt _ (by norm_num)) hd
      have h16 : (16 : Nat) ^ (w + 1) = 16 * 16 ^ w := by
        rw [pow_succ, Nat.mul_comm]
      have hdiv₁ : n₁ / 16 ^ w < 16 :=
        (Nat.div_lt_iff_lt_mul (by positivity)).mpr (h16 ▸ h₁)
      have hdiv₂ : n₂ / 16 ^ w < 16 :=
        (Nat.div_lt_iff_lt_mul (by positivity)).mpr (h16 ▸ h₂)
      have hdiveq : n₁ / 16 ^ w = n₂ / 16 ^ w := by
        rwa [Nat.mod_eq_of_lt hdiv₁, Nat.mod_eq_of_lt hdiv₂] at hdig
      have htail : hexCharsBE w (n₁ % 16 ^ w) = hexCharsBE w (n₂ % 16 ^ w) := by
        rw [hexCharsBE_mod, hexCharsBE_mod]
        exact ht
      have hmodeq : n₁ % 16 ^ w = n₂ % 16 ^ w :=
        ih _ _ (Nat.mod_lt _ (by positivity)) (Nat.mod_lt _ (by positivity))
          htail
      calc n₁ = 16 ^ w * (n₁ / 16 ^ w) + n₁ % 16 ^ w :=
            (Nat.div_add_mod _ _).symm
        _ = 16 ^ w * (n₂ / 16 ^ w) + n₂ % 16 ^ w := by rw [hdiveq, hmodeq]
        _ = n₂ := Nat.div_add_mod _ _

/-- Every raw signature is one of the `16 ^ 16` sixteen-character hex
strings: the truncation maps into a finite range. -/
theorem rawSignature_mem_hex16 (content_id date key : String) :
    ∃ m, m < 16 ^ 16 ∧
      rawSignature content_id date key = String.mk (hexCharsBE 16 m) := by
  refine ⟨bytesToNat (hmacSha256 (strUtf8 key)
      (strUtf8 (content_id ++ ":" ++ date))) / 16 ^ 48 % 16 ^ 16,
    Nat.mod_lt _ (by positivity), ?_⟩
  unfold rawSignature
  congr 1
  have h64 : (64 : Nat) = 48 + 16 := rfl
  rw [h64, hexCharsBE_take]
  exact (hexCharsBE_mod 16 _).symm

theorem idString_ne_empty (k : Nat) : idString k ≠ "" := by
  intro h
  have hlen : (idString k).data.length = 17 := by
    simp [idString, hexCharsBE_length]
  rw [h] at hlen
  simp at hlen

theorem idString_inj {k₁ k₂ : Nat} (h₁ : k₁ < 16 ^ 17) (h₂ : k₂ < 16 ^ 17)
    (h : idString k₁ = idString k₂) : k₁ = k₂ := by
  unfold idString at h
  injection h with h'
  exact hexCharsBE_inj 17 _ _ h₁ h₂ h'

theorem generate_signature_some (content_id date key env : String)
    (h : key ≠ "") :
    generate_signature content_id date (some key) env =
      Except.ok (rawSignature content_id date key) := by
  unfold generate_signature effectiveKey
  simp [h]

/-- C7 amended.  For every non-empty key (and any content id, date and
environment), `generate_signature` succeeds with the truncated HMAC hex
digest, verifying that exact signature returns `True`, and verifying any
other candidate string returns `False` (mutating any signature character
flips verification).  Mutating the content id or the date changes the
expected signature in general, but — the digest being truncated to 16 hex
characters — distinct inputs can collide, so verification is not
guaranteed to flip for those mutations. -/
theorem verify_generate_roundtrip (content_id date key env : String)
    (hkey : key ≠ "") :
    ∃ s : String,
      generate_signature content_id date (some key) env = Except.ok s ∧
      verify_signature content_id date s (some key) env = true ∧
      ∀ s' : String, s' ≠ s →
        verify_signature content_id date s' (some key) env = false := by
  refine ⟨rawSignature content_id date key,
    generate_signature_some content_id date key env hkey, ?_, ?_⟩
  · unfold verify_signature
    rw [generate_signature_some content_id date key env hkey]
    simp
  · intro s' hs'
    unfold verify_signature
    rw [generate_signature_some content_id date key env hkey]
    simp only [beq_eq_false_iff_ne, ne_eq]
    exact fun hh => hs' hh.symm

/-- Witness for C7's amended theorem at the docstring's example inputs. -/
theorem verify_generate_roundtrip_witness :
    ("my-secret" : String) ≠ "" ∧
    ∃ s : String,
      generate_signature "github-torvalds-linux" "2024-02-10"
          (some "my-secret") "" = Except.ok s ∧
      verify_signature "github-torvalds-linux" "2024-02-10" s
          (some "my-secret") "" = true ∧
      ∀ s' : String, s' ≠ s →
        verify_signature "github-torvalds-linux" "2024-02-10" s'
            (some "my-secret") "" = false :=
  ⟨by decide, verify_generate_roundtrip "github-torvalds-linux" "2024-02-10"
    "my-secret" "" (by decide)⟩

/-- C7 counterexample.  The claim's "changing content_id ... makes
verify_signature return False" is false: signatures are 16-hex-character
strings, of which there are only `16 ^ 16`, while there are more distinct
non-empty content ids — by pigeonhole two distinct ids share one
signature under the same date and key, and the second id verifies the
first id's signature. -/
theorem signature_truncation_collision :
    ∃ id1 id2 : String, id1 ≠ "" ∧ id2 ≠ "" ∧ id1 ≠ id2 ∧
      ∃ s : String,
        generate_signature id1 "2024-01-01" (some "my-secret") "" =
          Except.ok s ∧
        verify_signature id2 "2024-01-01" s (some "my-secret") "" = true := by
  have hmaps : ∀ k ∈ Finset.range (16 ^ 16 + 1),
      rawSignature (idString k) "2024-01-01" "my-secret" ∈
        (Finset.range (16 ^ 16)).image
          (fun m => String.mk (hexCharsBE 16 m)) := by
    intro k _
    rcases rawSignature_mem_hex16 (idString k) "2024-01-01" "my-secret" with
      ⟨m, hm, heq⟩
    exact Finset.mem_image.mpr ⟨m, Finset.mem_range.mpr hm, heq.symm⟩
  have hcard : ((Finset.range (16 ^ 16)).image
      (fun m => String.mk (hexCharsBE 16 m))).card <
      (Finset.range (16 ^ 16 + 1)).card := by
    calc ((Finset.range (16 ^ 16)).image
        (fun m => String.mk (hexCharsBE 16 m))).card
        ≤ (Finset.range (16 ^ 16)).card := Finset.card_image_le
      _ = 16 ^ 16 := Finset.card_range _
      _ < 16 ^ 16 + 1 := Nat.lt_succ_self _
      _ = (Finset.range (16 ^ 16 + 1)).card := (Finset.card_range _).symm
  obtain ⟨k₁, hk₁, k₂, hk₂, hne, heq⟩ :=
    Finset.exists_ne_map_eq_of_card_lt_of_maps_to hcard hmaps
  have hb₁ : k₁ < 16 ^ 17 :=
    lt_of_lt_of_le (Finset.mem_range.mp hk₁) (by norm_num)
  have hb₂ : k₂ < 16 ^ 17 :=
    lt_of_lt_of_le (Finset.mem_range.mp hk₂) (by norm_num)
  refine ⟨idString k₁, idString k₂, idString_ne_empty k₁,
    idString_ne_empty k₂, fun hid => hne (idString_inj hb₁ hb₂ hid),
    rawSignature (idString k₁) "2024-01-01" "my-secret",
    generate_signature_some _ _ _ _ (by decide), ?_⟩
  unfold verify_signature
  rw [generate_signature_some _ _ _ _ (by decide), ← heq]
  simp

/-- C10.  `verify_signature` is total: with no `secret_key` argument and
the `SECRET_KEY` environment variable unset or empty it returns `False`
for every content id, date and candidate signature (the `ValueError` is
caught), whereas `generate_signature` in the same condition raises
`ValueError`. -/
theorem verify_signature_total_without_key :
    (∀ content_id date sig : String,
      verify_signature content_id date sig none "" = false) ∧
    (∀ content_id date : String,
      generate_signature content_id date none "" =
        Except.error
          "Secret key required. Set SECRET_KEY environment variable.") :=
  ⟨fun _ _ _ => rfl, fun _ _ => rfl⟩
